import Mathlib

/-!
Verification development for the rocket-sqlx service: a record-sync API with
last-write-wins conflict resolution (src/handlers/posts.rs) and a one-time-code
authentication flow (src/handlers/session.rs, src/util.rs).

Timestamps (`chrono::NaiveDateTime`, UTC) are modelled as `Int` seconds;
database ids as `Int`; the posts table as a map from the primary key `id`
to an optional row. SQL statements are translated clause by clause:
`INSERT .. ON CONFLICT(id) DO UPDATE .. WHERE` becomes a conditional update on
the keyed map, and a multi-row insert applies its rows left to right, which is
how SQLite resolves a multi-values `INSERT .. ON CONFLICT`.
-/

namespace RocketSqlx

/-! ## Posts: data model (src/db.rs, struct Post) -/

/-- A row of the `posts` table (src/db.rs). -/
structure Post where
  id : String
  content : String
  created_at : Int
  updated_at : Int
  user_id : Int
  variant : String
deriving DecidableEq, Repr

/-- The `posts` table, keyed by its primary key `id`. -/
def Store : Type := String → Option Post

/-- Request body of `POST /api/posts` (src/handlers/posts.rs, CreateRequestBody). -/
structure CreateRequestBody where
  id : Option String
  created_at : Option Int
  content : String
  updated_at : Option Int
  variant : String
deriving DecidableEq, Repr

/-- Request body element of `POST /api/posts/upsert-many`
(src/handlers/posts.rs, UpsertPostPayload). -/
structure UpsertPostPayload where
  id : String
  created_at : Int
  content : String
  updated_at : Int
  variant : String
deriving DecidableEq, Repr

/-- Request body of `PUT /api/posts/<id>` (src/handlers/posts.rs, UpdateRequestBody). -/
structure UpdateRequestBody where
  content : String
  updated_at : Option Int
deriving DecidableEq, Repr

/-- One row of
`INSERT INTO posts (created_at, id, content, updated_at, user_id, variant)
 VALUES (..) ON CONFLICT(id) DO UPDATE SET content = excluded.content,
 variant = excluded.variant, updated_at = excluded.updated_at
 WHERE posts.updated_at < excluded.updated_at AND posts.user_id = excluded.user_id`
(src/handlers/posts.rs lines 80-97 and 128-149). -/
def upsert_row (s : Store) (uid : Int) (p : UpsertPostPayload) : Store :=
  fun k =>
    if k = p.id then
      match s p.id with
      | none => some ⟨p.id, p.content, p.created_at, p.updated_at, uid, p.variant⟩
      | some old =>
          if old.updated_at < p.updated_at ∧ old.user_id = uid then
            some { old with content := p.content, variant := p.variant,
                            updated_at := p.updated_at }
          else some old
    else s k

/-- HTTP status codes used by the handlers. -/
def statusOk : Nat := 200
def statusCreated : Nat := 201
def statusNotFound : Nat := 404
def statusUnauthorized : Nat := 401
def statusTooManyRequests : Nat := 429
def statusInternalServerError : Nat := 500

/-- Handler `create` (`POST /api/posts`, src/handlers/posts.rs lines 72-100).
`now` is the injected clock value, `genId` the value `id_gen()` would return;
the body's missing fields default as in the source. Returns the HTTP status
and the table after the statement. -/
def create (s : Store) (uid : Int) (now : Int) (genId : String)
    (b : CreateRequestBody) : Nat × Store :=
  let id := b.id.getD genId
  let created_at := b.created_at.getD now
  let updated_at := b.updated_at.getD now
  (statusCreated, upsert_row s uid ⟨id, created_at, b.content, updated_at, b.variant⟩)

/-- Handler `upsert_many` (`POST /api/posts/upsert-many`,
src/handlers/posts.rs lines 119-152): empty body returns success without
touching storage; otherwise one bulk insert whose rows are resolved left to
right, each under the same ON CONFLICT rule. -/
def upsert_many (s : Store) (uid : Int) (body : List UpsertPostPayload) :
    Nat × Store :=
  if body.isEmpty then (statusOk, s)
  else (statusOk, body.foldl (fun st p => upsert_row st uid p) s)

/-- Handler `update` (`PUT /api/posts/<id>`, src/handlers/posts.rs lines 196-226):
`UPDATE posts SET content = ?, updated_at = ? WHERE id = ? AND user_id = ?
 AND updated_at < ?`; zero affected rows yields 404. -/
def update (s : Store) (uid : Int) (now : Int) (id : String)
    (b : UpdateRequestBody) : Nat × Store :=
  let updated_at := b.updated_at.getD now
  match s id with
  | some old =>
      if old.user_id = uid ∧ old.updated_at < updated_at then
        (statusOk, fun k =>
          if k = id then some { old with content := b.content, updated_at := updated_at }
          else s k)
      else (statusNotFound, s)
  | none => (statusNotFound, s)

/-- Any accepted write operation on the posts table: single upsert, batch
upsert, or conditional update (the three mutating handlers of the
conflict-resolution rule). -/
inductive WriteOp where
  | createOp (uid : Int) (now : Int) (genId : String) (b : CreateRequestBody)
  | upsertManyOp (uid : Int) (body : List UpsertPostPayload)
  | updateOp (uid : Int) (now : Int) (id : String) (b : UpdateRequestBody)

/-- The table after applying one write operation. -/
def applyOp (s : Store) : WriteOp → Store
  | .createOp uid now genId b => (create s uid now genId b).2
  | .upsertManyOp uid body => (upsert_many s uid body).2
  | .updateOp uid now id b => (update s uid now id b).2

/-! ## Sessions: data model and one-time-code flow (src/db.rs, src/util.rs,
src/handlers/session.rs) -/

/-- A row of the `users` table (src/db.rs, struct User). The three challenge
fields are nullable. -/
structure UserRow where
  id : Int
  email : String
  code_hash : Option String
  code_attempts : Option Int
  code_created_at : Option Int
deriving DecidableEq, Repr

/-- Predicate `code_is_valid` (src/util.rs lines 73-75): exactly 8 ASCII digits. -/
def code_is_valid (code : String) : Bool :=
  code.length == 8 && code.data.all (fun c => c.isDigit)

/-- A character admitted by the regex class `[^\s@]` of the email regex. -/
def email_chunk_char (c : Char) : Bool :=
  !c.isWhitespace && c != '@'

/-- Predicate `email_is_valid` (src/util.rs lines 36-42): matching against
`^[^\s@]+@[^\s@]+\.[^\s@]+$`. The string must be `l ++ "@" ++ d` with `l`
nonempty and free of whitespace and at-signs (so the split is at the first
at-sign), and `d` likewise nonempty and free of whitespace and at-signs with
a dot somewhere strictly inside it (the regex backtracks to find one). -/
def email_is_valid (email : String) : Bool :=
  let cs := email.data
  let l := cs.takeWhile (fun c => c != '@')
  match cs.drop l.length with
  | '@' :: d =>
      !l.isEmpty && l.all email_chunk_char && d.all email_chunk_char &&
        (d.drop 1).dropLast.contains '.'
  | _ => false

/-- One random byte mapped to a digit, the per-character step of the code
generator `rand::random::<u8>() % 10` (src/handlers/session.rs line 121). -/
def byte_to_digit (b : Nat) : Nat := b % 10

/-- The 8-digit code built in `send_code` (src/handlers/session.rs lines
120-123) from a supply of random bytes: each byte is reduced mod 10 and
rendered as its decimal digit, and the digits are concatenated. -/
def gen_code (bytes : List Nat) : String :=
  String.mk (bytes.map (fun b => Nat.digitChar (byte_to_digit b)))

/-- Outcome of the `login` handler, abstracting the HTTP response. -/
inductive LoginRes where
  | unauthorized
  | ok (userId : Int)
deriving DecidableEq, Repr

/-- Handler `login` (`POST /api/session/login`, src/handlers/session.rs lines
27-106). `ver` is the argon2 verification oracle `hash_code_verify` (its
`unwrap_or(false)` already folded in: an error counts as no match), `now` the
clock, `found` the row `SELECT * FROM users WHERE email = ?` returns (none
both for `RowNotFound` and for no row). The result is the response paired
with the user's row after the handler; `none` models a panic of one of the
`.expect()` calls on the challenge fields. -/
def login (ver : String → String → Bool) (now : Int)
    (found : Option UserRow) (email code : String) :
    Option (LoginRes × Option UserRow) :=
  if !code_is_valid code then some (.unauthorized, found)
  else if !email_is_valid email then some (.unauthorized, found)
  else
    match found with
    | none => some (.unauthorized, none)
    | some user =>
        if user.code_hash.isNone then some (.unauthorized, some user)
        else
          match user.code_attempts with
          | none => none
          | some code_attempts =>
              if code_attempts > 2 then some (.unauthorized, some user)
              else
                match user.code_created_at with
                | none => none
                | some code_created_at =>
                    if code_created_at < now - 10 * 60 then
                      some (.unauthorized, some user)
                    else
                      match user.code_hash with
                      | none => none
                      | some h =>
                          if !ver h code then
                            some (.unauthorized,
                              some { user with code_attempts := some (code_attempts + 1) })
                          else
                            some (.ok user.id,
                              some { user with code_attempts := none,
                                               code_created_at := none,
                                               code_hash := none })

/-- Outcome of the `send_code` handler, abstracting the HTTP response. -/
inductive SendCodeRes where
  | invalidEmail
  | rateLimited
  | success
deriving DecidableEq, Repr

/-- Handler `send_code` (`POST /api/session/send-code`, src/handlers/session.rs
lines 114-188). `now` is the clock, `code_hash` the argon2 hash of the freshly
generated code (the hash step is modelled as succeeding; its failure branch
returns 500 before any lookup and mutates nothing), `found` the row
`SELECT id, code_created_at FROM users WHERE email = ?` returns, `newId` the
id the INSERT would assign. Returns the response and the row afterwards. -/
def send_code (now : Int) (code_hash : String) (found : Option UserRow)
    (email : String) (newId : Int) : SendCodeRes × Option UserRow :=
  if !email_is_valid email then (.invalidEmail, found)
  else
    match found with
    | some record =>
        if (match record.code_created_at with
            | some t => decide (t > now - 2 * 60)
            | none => false) then
          (.rateLimited, some record)
        else
          (.success, some { record with code_attempts := some 0,
                                        code_created_at := some now,
                                        code_hash := some code_hash })
    | none =>
        (.success, some ⟨newId, email, some code_hash, some 0, some now⟩)

/-! ## List handler (src/handlers/posts.rs lines 16-59) -/

/-- Query parameters of `GET /api/posts` with the `after` timestamp already
parsed (an unparseable `after` panics in the source and is out of scope). -/
structure QueryParams where
  after : Option Int
  limit : Option Int
deriving DecidableEq, Repr

/-- SQLite `LIMIT n`: a negative `n` means no limit. -/
def sql_limit (n : Int) (xs : List Post) : List Post :=
  if n < 0 then xs else xs.take n.toNat

/-- Insert a row into a list already sorted by `updated_at` descending. -/
def insert_desc (p : Post) : List Post → List Post
  | [] => [p]
  | q :: qs =>
      if q.updated_at ≤ p.updated_at then p :: q :: qs
      else q :: insert_desc p qs

/-- The clause `ORDER BY updated_at DESC` on the filtered rows (ties in unspecified
order, as in SQLite; insertion sort realises one admissible order). -/
def sort_updated_desc (xs : List Post) : List Post :=
  xs.foldr insert_desc []

/-- Handler `list` (`GET /api/posts`): limit defaults to 10 and is capped at
1000; with a cursor the query is
`SELECT * WHERE user_id = ? AND updated_at >= ? ORDER BY updated_at DESC
 LIMIT limit+1`, without one it is `SELECT * WHERE user_id = ? LIMIT limit`;
`hasMore` is `fetched > limit` and then the page is truncated to `limit`.
`rows` is the table contents in insertion order; the result is
(status, items, hasMore). -/
def list_handler (rows : List Post) (uid : Int) (qp : QueryParams) :
    Nat × List Post × Bool :=
  let limit := min (qp.limit.getD 10) 1000
  let limit_plus_one := limit + 1
  let posts :=
    match qp.after with
    | some after =>
        sql_limit limit_plus_one
          (sort_updated_desc
            (rows.filter (fun p => p.user_id = uid && p.updated_at ≥ after)))
    | none => sql_limit limit (rows.filter (fun p => p.user_id = uid))
  let has_more := (posts.length : Int) > limit
  let posts := if has_more then posts.take limit.toNat else posts
  (statusOk, posts, has_more)

/-- Challenge-field coherence of a user row: `code_hash`, `code_attempts` and
`code_created_at` are all absent or all present. -/
def coherent : Option UserRow → Prop
  | none => True
  | some u =>
      (u.code_hash.isSome ↔ u.code_attempts.isSome) ∧
      (u.code_hash.isSome ↔ u.code_created_at.isSome)

/-- The states of a principal's row reachable through the public operations:
no row at first, then any interleaving of `send_code` and `login` calls. -/
inductive Reachable : Option UserRow → Prop
  | init : Reachable none
  | stepSend (s : Option UserRow) (now : Int) (nh : String) (email : String)
      (newId : Int) : Reachable s → Reachable (send_code now nh s email newId).2
  | stepLogin (s s2 : Option UserRow) (ver : String → String → Bool) (now : Int)
      (email code : String) (r : LoginRes) :
      Reachable s → login ver now s email code = some (r, s2) → Reachable s2

/-- A posts table of eleven rows owned by user 1 with distinct ids and
ascending `updated_at`, used to exercise the list handler. -/
def rows_eleven : List Post :=
  (List.range 11).map (fun i => ⟨toString i, "c", 0, (i : Int), 1, "note"⟩)

/-! ## Theorems -/

theorem upsert_row_mono (s : Store) (uid : Int) (p : UpsertPostPayload)
    (k : String) (r : Post) (h : s k = some r) :
    ∃ r', upsert_row s uid p k = some r' ∧ r.updated_at ≤ r'.updated_at := by
  by_cases hk : k = p.id
  · subst hk
    by_cases hc : r.updated_at < p.updated_at ∧ r.user_id = uid
    · refine ⟨{ r with content := p.content, variant := p.variant,
                       updated_at := p.updated_at }, ?_, le_of_lt hc.1⟩
      simp [upsert_row, h, hc]
    · exact ⟨r, by simp [upsert_row, h, hc], le_refl _⟩
  · exact ⟨r, by simpa [upsert_row, hk] using h, le_refl _⟩

theorem upsert_fold_mono (body : List UpsertPostPayload) (uid : Int) :
    ∀ (s : Store) (k : String) (r : Post), s k = some r →
      ∃ r', (body.foldl (fun st p => upsert_row st uid p) s) k = some r' ∧
        r.updated_at ≤ r'.updated_at := by
  induction body with
  | nil => exact fun s k r h => ⟨r, h, le_refl _⟩
  | cons p ps ih =>
      intro s k r h
      obtain ⟨r1, h1, hle1⟩ := upsert_row_mono s uid p k r h
      obtain ⟨r2, h2, hle2⟩ := ih (upsert_row s uid p) k r1 h1
      exact ⟨r2, h2, le_trans hle1 hle2⟩

theorem applyOp_mono (s : Store) (op : WriteOp) (k : String) (r : Post)
    (h : s k = some r) :
    ∃ r', applyOp s op k = some r' ∧ r.updated_at ≤ r'.updated_at := by
  cases op with
  | createOp uid now genId b =>
      exact upsert_row_mono s uid _ k r h
  | upsertManyOp uid body =>
      by_cases hb : body.isEmpty
      · exact ⟨r, by simp [applyOp, upsert_many, hb, h], le_refl _⟩
      · simpa [applyOp, upsert_many, hb] using upsert_fold_mono body uid s k r h
  | updateOp uid now id b =>
      simp only [applyOp, update]
      cases hs : s id with
      | none => exact ⟨r, by simp [h], le_refl _⟩
      | some old =>
          by_cases hc : old.user_id = uid ∧ old.updated_at < b.updated_at.getD now
          · by_cases hk : k = id
            · subst hk
              rw [hs] at h
              cases h
              refine ⟨{ r with content := b.content,
                               updated_at := b.updated_at.getD now },
                ?_, le_of_lt hc.2⟩
              simp [hc]
            · exact ⟨r, by simp [hc, hk, h], le_refl _⟩
          · exact ⟨r, by simp [hc, h], le_refl _⟩

/-- Claim C1: across any sequence of accepted writes (single upsert, batch
upsert, conditional update), a row's stored `updatedAt` never decreases: a
write mutates an existing row only when its `updatedAt` is strictly greater
than the stored one. -/
theorem stored_updated_at_monotone (ops : List WriteOp) :
    ∀ (s : Store) (k : String) (r r' : Post), s k = some r →
      (ops.foldl applyOp s) k = some r' → r.updated_at ≤ r'.updated_at := by
  induction ops with
  | nil =>
      intro s k r r' h h'
      rw [List.foldl_nil, h] at h'
      cases h'
      exact le_refl _
  | cons op rest ih =>
      intro s k r r' h h'
      obtain ⟨r1, h1, hle1⟩ := applyOp_mono s op k r h
      exact le_trans hle1 (ih (applyOp s op) k r1 r' h1 h')

/-- Claim C1 witness: a concrete stale-then-fresh history. -/
theorem stored_updated_at_monotone_witness : (3 : Int) ≤ 7 :=
  stored_updated_at_monotone
    [WriteOp.createOp 1 0 "g" ⟨some "a", some 0, "x", some 7, "note"⟩]
    (fun k => if k = "a" then some ⟨"a", "c0", 0, 3, 1, "note"⟩ else none)
    "a" ⟨"a", "c0", 0, 3, 1, "note"⟩ ⟨"a", "x", 0, 7, 1, "note"⟩
    (by simp) (by simp [applyOp, create, upsert_row])

theorem upsert_row_idem (s : Store) (uid : Int) (p : UpsertPostPayload) :
    upsert_row (upsert_row s uid p) uid p = upsert_row s uid p := by
  funext k
  by_cases hk : k = p.id
  · subst hk
    cases hs : s p.id with
    | none =>
        simp [upsert_row, hs]
    | some old =>
        by_cases hc : old.updated_at < p.updated_at ∧ old.user_id = uid
        · simp [upsert_row, hs, hc]
        · simp [upsert_row, hs, hc]
  · simp [upsert_row, hk]

/-- Claim C2: the single upsert is an idempotent last-write-wins merge: with
no row for the id it inserts unconditionally; with a row it updates
content/variant/updatedAt exactly when the new `updatedAt` is strictly
greater and the owner matches, otherwise it is a silent no-op; the response
is 201 either way; other keys are untouched; and running the identical
request (same resolved timestamps) twice leaves the same state as once. -/
theorem create_upsert_lww_idempotent (s : Store) (uid now : Int) (genId : String)
    (b : CreateRequestBody) :
    (create s uid now genId b).1 = statusCreated ∧
    (s (b.id.getD genId) = none →
      (create s uid now genId b).2 (b.id.getD genId) =
        some ⟨b.id.getD genId, b.content, b.created_at.getD now,
              b.updated_at.getD now, uid, b.variant⟩) ∧
    (∀ old, s (b.id.getD genId) = some old →
      (create s uid now genId b).2 (b.id.getD genId) =
        if old.updated_at < b.updated_at.getD now ∧ old.user_id = uid then
          some { old with content := b.content, variant := b.variant,
                          updated_at := b.updated_at.getD now }
        else some old) ∧
    (∀ k, k ≠ b.id.getD genId → (create s uid now genId b).2 k = s k) ∧
    (create (create s uid now genId b).2 uid now genId b).2 =
      (create s uid now genId b).2 := by
  refine ⟨rfl, ?_, ?_, ?_, ?_⟩
  · intro h
    simp [create, upsert_row, h]
  · intro old h
    by_cases hc : old.updated_at < b.updated_at.getD now ∧ old.user_id = uid
    · simp [create, upsert_row, h, hc]
    · simp [create, upsert_row, h, hc]
  · intro k hk
    simp [create, upsert_row, hk]
  · exact upsert_row_idem s uid _

/-- Claim C2 witness: inserting a fresh record and replaying the identical
request. -/
theorem create_upsert_lww_idempotent_witness :
    ((fun _ => (none : Option Post)) "a" = none) ∧
    (create (fun _ => none) 1 5 "g" ⟨some "a", none, "x", some 7, "v"⟩).2 "a" =
      some ⟨"a", "x", 5, 7, 1, "v"⟩ := by
  refine ⟨rfl, ?_⟩
  exact (create_upsert_lww_idempotent (fun _ => none) 1 5 "g"
    ⟨some "a", none, "x", some 7, "v"⟩).2.1 rfl

/-- Claim C7: batch upsert resolves each record independently under the
last-write-wins rule: in a two-record batch with distinct ids, a stale
record leaves its row unchanged while a fresh record updates its row; keys
outside the batch are untouched; the empty batch performs no storage
operation and reports success; the non-empty batch reports success too. -/
theorem upsert_many_batch_independent (s : Store) (uid : Int)
    (a b : UpsertPostPayload) (ha : a.id ≠ b.id) :
    ((upsert_many s uid []).1 = statusOk ∧ (upsert_many s uid []).2 = s) ∧
    (upsert_many s uid [a, b]).1 = statusOk ∧
    (∀ olda, s a.id = some olda → ¬ olda.updated_at < a.updated_at →
      (upsert_many s uid [a, b]).2 a.id = some olda) ∧
    (∀ oldb, s b.id = some oldb → oldb.updated_at < b.updated_at →
      oldb.user_id = uid →
      (upsert_many s uid [a, b]).2 b.id =
        some { oldb with content := b.content, variant := b.variant,
                         updated_at := b.updated_at }) ∧
    (∀ k, k ≠ a.id → k ≠ b.id → (upsert_many s uid [a, b]).2 k = s k) := by
  refine ⟨⟨rfl, rfl⟩, rfl, ?_, ?_, ?_⟩
  · intro olda hs hstale
    have hne : ¬ (olda.updated_at < a.updated_at ∧ olda.user_id = uid) :=
      fun hcon => hstale hcon.1
    simp [upsert_many, upsert_row, hs, hne, Ne.symm ha, ha]
  · intro oldb hs hfresh howner
    simp [upsert_many, upsert_row, hs, ha, Ne.symm ha, hfresh, howner]
  · intro k hka hkb
    simp [upsert_many, upsert_row, hka, hkb]

/-- Claim C7 witness: stale A and fresh B in one batch against a store where
both exist. -/
theorem upsert_many_batch_independent_witness :
    (upsert_many
        (fun k => if k = "A" then some ⟨"A", "ca", 0, 9, 1, "v"⟩
          else if k = "B" then some ⟨"B", "cb", 0, 2, 1, "v"⟩ else none)
        1 [⟨"A", 0, "stale", 5, "v"⟩, ⟨"B", 0, "fresh", 6, "v"⟩]).2 "A" =
      some ⟨"A", "ca", 0, 9, 1, "v"⟩ ∧
    (upsert_many
        (fun k => if k = "A" then some ⟨"A", "ca", 0, 9, 1, "v"⟩
          else if k = "B" then some ⟨"B", "cb", 0, 2, 1, "v"⟩ else none)
        1 [⟨"A", 0, "stale", 5, "v"⟩, ⟨"B", 0, "fresh", 6, "v"⟩]).2 "B" =
      some ⟨"B", "fresh", 0, 6, 1, "v"⟩ := by
  constructor
  · exact (upsert_many_batch_independent _ 1 ⟨"A", 0, "stale", 5, "v"⟩
      ⟨"B", 0, "fresh", 6, "v"⟩ (by decide)).2.2.1 ⟨"A", "ca", 0, 9, 1, "v"⟩
      (by simp) (by decide)
  · exact (upsert_many_batch_independent _ 1 ⟨"A", 0, "stale", 5, "v"⟩
      ⟨"B", 0, "fresh", 6, "v"⟩ (by decide)).2.2.2.1 ⟨"B", "cb", 0, 2, 1, "v"⟩
      (by simp) (by decide) (by decide)

/-- Claim C3: once a challenge's attempts counter has reached 3, every verify
call for that principal returns Unauthorized and leaves the row unchanged,
whatever the submitted code and however the verification oracle behaves. -/
theorem login_exhausted_rejects (ver : String → String → Bool) (now : Int)
    (user : UserRow) (email code : String) (h : String) (a : Int)
    (h1 : user.code_hash = some h) (h2 : user.code_attempts = some a)
    (h3 : a > 2) :
    login ver now (some user) email code = some (.unauthorized, some user) := by
  unfold login
  cases hcv : code_is_valid code with
  | false => simp [hcv]
  | true =>
      cases hev : email_is_valid email with
      | false => simp [hcv, hev]
      | true => simp [hcv, hev, h1, h2, h3]

/-- Claim C3 witness: an exhausted challenge rejects the correct code. -/
theorem login_exhausted_rejects_witness :
    login (fun _ _ => true) 0
        (some ⟨1, "a@example.com", some "H", some 3, some 0⟩)
        "a@example.com" "12345678" =
      some (.unauthorized, some ⟨1, "a@example.com", some "H", some 3, some 0⟩) :=
  login_exhausted_rejects (fun _ _ => true) 0
    ⟨1, "a@example.com", some "H", some 3, some 0⟩
    "a@example.com" "12345678" "H" 3 rfl rfl (by decide)

/-- Claim C4: a challenge whose `createdAt` is older than 10 minutes at the
time of the verify call is rejected with Unauthorized, whatever the submitted
code, and the row (attempts, codeHash, createdAt) is left unchanged. -/
theorem login_expired_rejects (ver : String → String → Bool) (now : Int)
    (user : UserRow) (email code : String) (h : String) (a t : Int)
    (h1 : user.code_hash = some h) (h2 : user.code_attempts = some a)
    (h3 : user.code_created_at = some t) (h4 : t < now - 10 * 60) :
    login ver now (some user) email code = some (.unauthorized, some user) := by
  unfold login
  cases hcv : code_is_valid code with
  | false => simp [hcv]
  | true =>
      cases hev : email_is_valid email with
      | false => simp [hcv, hev]
      | true =>
          by_cases hx : a > 2
          · simp [hcv, hev, h1, h2, hx]
          · simp only [hcv, hev, h1, h2, h3, hx, Bool.not_true,
              Bool.false_eq_true, if_false, Option.isNone_some, ite_false,
              gt_iff_lt]
            rw [if_pos h4]

/-- Claim C4 witness: the correct code at 10 minutes and 1 second. -/
theorem login_expired_rejects_witness :
    login (fun _ _ => true) 601
        (some ⟨1, "a@example.com", some "H", some 0, some 0⟩)
        "a@example.com" "12345678" =
      some (.unauthorized, some ⟨1, "a@example.com", some "H", some 0, some 0⟩) :=
  login_expired_rejects (fun _ _ => true) 601
    ⟨1, "a@example.com", some "H", some 0, some 0⟩
    "a@example.com" "12345678" "H" 0 0 rfl rfl rfl (by decide)

/-- Claim C5: for an existing principal with a challenge, requesting a code
while `createdAt` is less than 2 minutes old is rejected with RateLimited and
the row is untouched; once the challenge is at least 2 minutes old the request
succeeds and overwrites the challenge with attempts 0, createdAt now, and the
new code hash. -/
theorem send_code_rate_limit (now : Int) (nh : String) (user : UserRow)
    (email : String) (newId : Int) (t : Int)
    (hev : email_is_valid email = true) (ht : user.code_created_at = some t) :
    (t > now - 2 * 60 →
      send_code now nh (some user) email newId = (.rateLimited, some user)) ∧
    (¬ t > now - 2 * 60 →
      send_code now nh (some user) email newId =
        (.success, some { user with code_attempts := some 0,
                                    code_created_at := some now,
                                    code_hash := some nh })) := by
  constructor
  · intro hrecent
    simp [send_code, hev, ht, hrecent]
    omega
  · intro hold
    simp [send_code, hev, ht, hold]
    omega

/-- Claim C5 witness: rate-limited at 60 seconds, accepted at 121 seconds. -/
theorem send_code_rate_limit_witness :
    send_code 60 "H2" (some ⟨1, "a@example.com", some "H1", some 1, some 0⟩)
        "a@example.com" 9 =
      (.rateLimited, some ⟨1, "a@example.com", some "H1", some 1, some 0⟩) ∧
    send_code 121 "H2" (some ⟨1, "a@example.com", some "H1", some 1, some 0⟩)
        "a@example.com" 9 =
      (.success, some ⟨1, "a@example.com", some "H2", some 0, some 121⟩) := by
  constructor
  · exact (send_code_rate_limit 60 "H2"
      ⟨1, "a@example.com", some "H1", some 1, some 0⟩ "a@example.com" 9 0
      (by decide) rfl).1 (by decide)
  · exact (send_code_rate_limit 121 "H2"
      ⟨1, "a@example.com", some "H1", some 1, some 0⟩ "a@example.com" 9 0
      (by decide) rfl).2 (by decide)

/-- Claim C6: a successful verification clears the challenge entirely (all
three fields absent) and returns the principal id, and every subsequent
verify call on the cleared row — with any code, the previously correct one
included — returns Unauthorized and leaves the row cleared. -/
theorem login_success_consumes_code (ver : String → String → Bool) (now : Int)
    (user : UserRow) (email code : String) (h : String) (a t : Int)
    (h1 : user.code_hash = some h) (h2 : user.code_attempts = some a)
    (h3 : user.code_created_at = some t) (ha : ¬ a > 2)
    (ht : ¬ t < now - 10 * 60) (hcv : code_is_valid code = true)
    (hev : email_is_valid email = true) (hver : ver h code = true) :
    login ver now (some user) email code =
      some (.ok user.id, some { user with code_attempts := none,
                                          code_created_at := none,
                                          code_hash := none }) ∧
    (∀ (ver2 : String → String → Bool) (now2 : Int) (email2 code2 : String),
      login ver2 now2
          (some { user with code_attempts := none, code_created_at := none,
                            code_hash := none }) email2 code2 =
        some (.unauthorized,
          some { user with code_attempts := none, code_created_at := none,
                           code_hash := none })) := by
  constructor
  · unfold login
    simp [hcv, hev, h1, h2, h3, ha, ht, hver]
    omega
  · intro ver2 now2 email2 code2
    unfold login
    cases hcv2 : code_is_valid code2 with
    | false => simp [hcv2]
    | true =>
        cases hev2 : email_is_valid email2 with
        | false => simp [hcv2, hev2]
        | true => simp [hcv2, hev2]

/-- Claim C6 witness: verify with the correct code, then replay it. -/
theorem login_success_consumes_code_witness :
    login (fun hh cc => hh == "H" && cc == "12345678") 0
        (some ⟨1, "a@example.com", some "H", some 0, some 0⟩)
        "a@example.com" "12345678" =
      some (.ok 1, some ⟨1, "a@example.com", none, none, none⟩) ∧
    login (fun hh cc => hh == "H" && cc == "12345678") 0
        (some ⟨1, "a@example.com", none, none, none⟩)
        "a@example.com" "12345678" =
      some (.unauthorized, some ⟨1, "a@example.com", none, none, none⟩) := by
  have main := login_success_consumes_code
    (fun hh cc => hh == "H" && cc == "12345678") 0
    ⟨1, "a@example.com", some "H", some 0, some 0⟩
    "a@example.com" "12345678" "H" 0 0 rfl rfl rfl (by decide) (by decide)
    (by decide) (by decide) (by decide)
  exact ⟨main.1, main.2 (fun hh cc => hh == "H" && cc == "12345678") 0
    "a@example.com" "12345678"⟩

theorem send_code_coherent (now : Int) (nh : String) (s : Option UserRow)
    (email : String) (newId : Int) (h : coherent s) :
    coherent (send_code now nh s email newId).2 := by
  unfold send_code
  cases hev : email_is_valid email with
  | false => simpa using h
  | true =>
      cases s with
      | none => simp [coherent]
      | some record =>
          cases hcc : record.code_created_at with
          | none => simp [hcc, coherent]
          | some t =>
              by_cases hrl : t > now - 2 * 60
              · simp only [hcc, Bool.not_true, Bool.false_eq_true, if_false,
                  ite_false]
                rw [if_pos (decide_eq_true hrl)]
                exact h
              · simp only [hcc, Bool.not_true, Bool.false_eq_true, if_false,
                  ite_false]
                rw [if_neg (fun hc => hrl (of_decide_eq_true hc))]
                simp [coherent]

theorem login_coherent_step (ver : String → String → Bool) (now : Int)
    (s : Option UserRow) (email code : String) (h : coherent s) :
    ∃ out, login ver now s email code = some out ∧ coherent out.2 := by
  unfold login
  cases hcv : code_is_valid code with
  | false => exact ⟨(.unauthorized, s), by simp [hcv], h⟩
  | true =>
      cases hev : email_is_valid email with
      | false => exact ⟨(.unauthorized, s), by simp [hcv, hev], h⟩
      | true =>
          cases s with
          | none => exact ⟨(.unauthorized, none), by simp [hcv, hev], trivial⟩
          | some user =>
              cases hh : user.code_hash with
              | none =>
                  exact ⟨(.unauthorized, some user),
                    by simp [hcv, hev, hh], h⟩
              | some hv =>
                  obtain ⟨hca, hcc⟩ := h
                  rw [hh] at hca hcc
                  simp only [Option.isSome_some, true_iff] at hca hcc
                  obtain ⟨a, ha⟩ := Option.isSome_iff_exists.mp hca
                  obtain ⟨t, htt⟩ := Option.isSome_iff_exists.mp hcc
                  by_cases hx : a > 2
                  · exact ⟨(.unauthorized, some user),
                      by simp [hcv, hev, hh, ha, hx], by
                        constructor <;> simp [hh, ha, htt]⟩
                  · by_cases hexp : t < now - 10 * 60
                    · refine ⟨(.unauthorized, some user), ?_, by
                        constructor <;> simp [hh, ha, htt]⟩
                      simp only [hcv, hev, hh, ha, htt, hx, Bool.not_true,
                        Bool.false_eq_true, if_false, Option.isNone_some,
                        ite_false, gt_iff_lt]
                      rw [if_pos hexp]
                    · cases hver : ver hv code with
                      | false =>
                          refine ⟨(.unauthorized,
                            some { user with code_attempts := some (a + 1) }),
                            ?_, by constructor <;> simp [hh, htt]⟩
                          simp [hcv, hev, hh, ha, htt, hx, hver]
                          omega
                      | true =>
                          refine ⟨(.ok user.id,
                            some { user with code_attempts := none,
                                             code_created_at := none,
                                             code_hash := none }), ?_,
                            by constructor <;> simp⟩
                          simp [hcv, hev, hh, ha, htt, hx, hver]
                          omega

/-- Claim C10: every state of a user row reachable through the public
operations keeps the three challenge fields coherent — `codeHash`,
`codeAttempts` and `codeCreatedAt` all absent or all present — and on every
such state the `login` path never panics: its unconditional unwrapping of
`codeAttempts` and `codeCreatedAt` after observing `codeHash` always finds a
value (the model returns `none` exactly where the source would panic). -/
theorem challenge_fields_coherent (s : Option UserRow) (hr : Reachable s) :
    coherent s ∧
    ∀ (ver : String → String → Bool) (now : Int) (email code : String),
      (login ver now s email code).isSome = true := by
  have hc : coherent s := by
    induction hr with
    | init => trivial
    | stepSend s now nh email newId _ ih =>
        exact send_code_coherent now nh s email newId ih
    | stepLogin s s2 ver now email code r _ heq ih =>
        obtain ⟨out, hout, hcout⟩ := login_coherent_step ver now s email code ih
        rw [heq] at hout
        cases hout
        exact hcout
  refine ⟨hc, fun ver now email code => ?_⟩
  obtain ⟨out, hout, _⟩ := login_coherent_step ver now s email code hc
  rw [hout]
  rfl

/-- Claim C10 witness: the state after one issuance is coherent and a login
probe on it cannot panic. -/
theorem challenge_fields_coherent_witness :
    coherent (send_code 0 "H" none "a@example.com" 1).2 ∧
    (login (fun _ _ => false) 0 (send_code 0 "H" none "a@example.com" 1).2
        "a@example.com" "12345678").isSome = true := by
  have main := challenge_fields_coherent (send_code 0 "H" none "a@example.com" 1).2
    (Reachable.stepSend none 0 "H" "a@example.com" 1 Reachable.init)
  exact ⟨main.1, main.2 (fun _ _ => false) 0 "a@example.com" "12345678"⟩

/-- Claim C8 counterexample: the byte-to-digit map of the code generator is
not uniform over the ten digits — digit 0 arises from 26 of the 256 byte
values while digit 9 arises from only 25. -/
theorem byte_to_digit_not_uniform :
    ((List.range 256).filter (fun b => byte_to_digit b = 0)).length ≠
      ((List.range 256).filter (fun b => byte_to_digit b = 9)).length := by
  decide

/-- Claim C8 as amended: the issued code is a string of exactly 8 decimal
digits (leading zeros allowed, so it passes the login format check), each
digit being its random byte reduced mod 10; under a uniformly random byte
that reduction is only near-uniform: each of the digits 0–5 arises from 26
of the 256 byte values and each of 6–9 from 25. -/
theorem gen_code_digits_biased (bytes : List Nat) (h8 : bytes.length = 8) :
    code_is_valid (gen_code bytes) = true ∧
    (gen_code bytes).length = 8 ∧
    (∀ d : Nat, d < 6 →
      ((List.range 256).filter (fun b => byte_to_digit b = d)).length = 26) ∧
    (∀ d : Nat, d < 10 → 6 ≤ d →
      ((List.range 256).filter (fun b => byte_to_digit b = d)).length = 25) := by
  have hdigit : ∀ n : Nat, n < 10 → (Nat.digitChar n).isDigit = true := by decide
  have hall : ((gen_code bytes).data.all (fun c => c.isDigit)) = true := by
    simp only [gen_code, String.mk]
    rw [List.all_eq_true]
    intro c hc
    obtain ⟨b, _, hb⟩ := List.mem_map.mp hc
    rw [← hb]
    exact hdigit _ (Nat.mod_lt _ (by norm_num))
  have hlen : (gen_code bytes).length = 8 := by
    simp [gen_code, String.length, h8]
  refine ⟨?_, hlen, by decide, by decide⟩
  simp only [code_is_valid, hall, Bool.and_true, hlen]
  rfl

/-- Claim C8 witness: the zero-biased example bytes 0..7. -/
theorem gen_code_digits_biased_witness :
    code_is_valid (gen_code [0, 1, 2, 3, 4, 5, 6, 7]) = true :=
  (gen_code_digits_biased [0, 1, 2, 3, 4, 5, 6, 7] (by decide)).1

/-- Claim C9 (code-bug evidence): with eleven stored rows owned by the user,
the no-cursor request at the default limit 10 reports `hasMore = false` even
though more than `limit` rows match, because that branch asks the store for
only `limit` rows; the same store with a cursor does fetch `limit + 1` rows
and reports `hasMore = true`, with the page ordered by `updatedAt`
descending; the limit defaults to 10 and is capped at 1000. -/
theorem list_no_cursor_has_more_bug :
    (rows_eleven.filter (fun p => p.user_id = 1)).length = 11 ∧
    (list_handler rows_eleven 1 ⟨none, none⟩).2.2 = false ∧
    (list_handler rows_eleven 1 ⟨none, none⟩).2.1.length = 10 ∧
    (list_handler rows_eleven 1 ⟨some 0, none⟩).2.2 = true ∧
    ((list_handler rows_eleven 1 ⟨some 0, none⟩).2.1.map
        (fun p => p.updated_at)) = [10, 9, 8, 7, 6, 5, 4, 3, 2, 1] ∧
    min ((none : Option Int).getD 10) 1000 = 10 ∧
    min ((some (5000 : Int)).getD 10) 1000 = 1000 := by
  refine ⟨by decide, by decide, by decide, by decide, by decide, by decide, by decide⟩

end RocketSqlx
